import Mathlib

/-!
# smallsh: a shallow embedding of `smallsh.c`

The shell keeps four process-wide variables (`STATUSCODE`, `NUMFORKS`,
`backgroundProcesses[10]`, `NUMBKGRND`).  They become the fields of the record
`Shell`, threaded through every function.  What the operating system answers
(the line read, the value `fork` returns, what `waitpid` reports, whether
`chdir` and `open` succeed) is supplied by the record `Env`.  Every observable
action of the shell process is appended to `Shell.trace`.

Conventions.

* A C string is the list of its characters before the terminating NUL.
* `char **args` is the list of its initialised cells, `none` being `NULL`.
* C `int` and `pid_t` are `Int`; no counter of the program leaves `0..512`,
  so wrap-around never matters.
* A step the C standard leaves undefined (a store outside an array, a `NULL`
  dereference, `strcpy` into a buffer that is too small, the read of an
  uninitialised local, `execvp` with a `NULL` program name) ends the run with
  `Halt.undefined`, or the child with `ChildEnd.undefined`.
* `malloc` is taken to succeed.
* The `SIGINT` disposition of the shell itself and the `free` calls at the end
  of a cycle have no effect on the modelled state and are left out.
-/

namespace Smallsh

/-! ## Basic types -/

/-- A C string: its characters before the terminating NUL. -/
abbrev CStr := List Char

/-- The constant `#define MAXBUFSIZE 2048`. -/
def MAXBUFSIZE : Nat := 2048

/-- The constant `#define MAXARGS 512`. -/
def MAXARGS : Nat := 512

/-- The constant `#define MAXFORK 100`. -/
def MAXFORK : Int := 100

/-- The wait status `waitpid` stores, read only through the `W*` macros of
`<sys/wait.h>`: the child exited with a code, was killed by a signal, was
stopped by a signal, or none of these. -/
inductive WaitStatus where
  | exited (code : Int)
  | signaled (sig : Int)
  | stopped (sig : Int)
  | other
  deriving DecidableEq, Repr

/-- Macro `WIFEXITED`. -/
def WIFEXITED : WaitStatus → Bool
  | .exited _ => true
  | _ => false

/-- Macro `WIFSIGNALED`. -/
def WIFSIGNALED : WaitStatus → Bool
  | .signaled _ => true
  | _ => false

/-- Macro `WIFSTOPPED`. -/
def WIFSTOPPED : WaitStatus → Bool
  | .stopped _ => true
  | _ => false

/-- Macro `WEXITSTATUS`; only meaningful when `WIFEXITED` holds. -/
def WEXITSTATUS : WaitStatus → Int
  | .exited c => c
  | _ => 0

/-- Macro `WTERMSIG`; only meaningful when `WIFSIGNALED` holds. -/
def WTERMSIG : WaitStatus → Int
  | .signaled g => g
  | _ => 0

/-- Macro `WSTOPSIG`; only meaningful when `WIFSTOPPED` holds. -/
def WSTOPSIG : WaitStatus → Int
  | .stopped g => g
  | _ => 0

/-- What one `waitpid(pid, &status, WNOHANG)` call does: it returns 0 and
leaves `status` alone (child still running), returns `pid` and stores a
status, or returns -1 and leaves `status` alone. -/
inductive WaitRet where
  | running
  | changed (st : WaitStatus)
  | error
  deriving DecidableEq, Repr

/-- An observable action of the shell process.  A `waitpid` records the
status it stored, if it stored one. -/
inductive Event where
  | print (text : String)
  | perror (text : String)
  | fork (ret : Int)
  | waitpid (pid : Int) (nohang : Bool) (stored : Option WaitStatus)
  | kill (pid : Int)
  | chdir (dir : Option CStr)
  deriving DecidableEq, Repr

/-- The `execvp(args[0], args)` call a child ends in, with the files bound to
its standard input and output (`none`: inherited from the shell) and its
`SIGINT` disposition.  The program name `args[0]` is a string, not `NULL`. -/
structure ExecCall where
  file : CStr
  argv : List CStr
  stdin : Option CStr
  stdout : Option CStr
  sigintIgnored : Bool
  printed : List String
  deriving DecidableEq, Repr

/-- How the forked child ends: in `execvp`, in `exit(1)` after a failed
`open`, or in undefined behaviour. -/
inductive ChildEnd where
  | exec (call : ExecCall)
  | exit (code : Int) (message : String)
  | undefined
  deriving DecidableEq, Repr

/-- Why a function of the shell does not return to its caller. -/
inductive Halt where
  | undefined
  | child (c : ChildEnd)
  | blocked
  | fuel
  deriving DecidableEq, Repr

deriving instance DecidableEq for Except

/-- The process-wide variables of `smallsh.c`, the local `status` of
`shellLoop`, and the trace of actions so far. -/
structure Shell where
  STATUSCODE : Int
  NUMFORKS : Int
  backgroundProcesses : List Int
  NUMBKGRND : Int
  status : WaitStatus
  trace : List Event
  deriving DecidableEq, Repr

/-- The state at the start of `main`: statics are zero, the job table holds
ten zeros, and the uninitialised local `status` holds `status0`. -/
def Shell.init (status0 : WaitStatus) : Shell :=
  { STATUSCODE := 0, NUMFORKS := 0, backgroundProcesses := List.replicate 10 0,
    NUMBKGRND := 0, status := status0, trace := [] }

/-- Append one action to the trace. -/
def Shell.emit (s : Shell) (e : Event) : Shell :=
  { s with trace := s.trace ++ [e] }

/-- What the environment answers during one cycle of `shellLoop`. -/
structure Env where
  /-- The result of the reaper's `waitpid` on slot `i`. -/
  poll : Nat → WaitRet
  /-- The pending input line `fgets` reads from (`none`: end of input). -/
  input : Option CStr
  /-- The value of `chdir` on a path (`none`: the `NULL` pointer). -/
  chdir : Option CStr → Int
  /-- The value of `getenv("HOME")`. -/
  home : Option CStr
  /-- The value `fork` returns. -/
  forkRet : Int
  /-- The statuses successive blocking `waitpid` calls store. -/
  waits : List WaitStatus
  /-- Whether `open(path, O_RDONLY)` succeeds in the child. -/
  openIn : CStr → Bool
  /-- Whether `open(path, O_WRONLY | O_CREAT | O_TRUNC)` succeeds in the child. -/
  openOut : CStr → Bool
  /-- The value of `getpid` in the child. -/
  childPid : Int

/-! ## `parseLine` -/

/-- The delimiter set `char delimiters[] = " \t\r\n"`. -/
def delimiters : List Char := [' ', '\t', '\r', '\n']

/-- Membership in the delimiter set passed to `strtok`. -/
def isDelim (delim : List Char) (c : Char) : Bool := delim.contains c

/-- One call of `strtok(3)` on the text at the saved position: skip leading
delimiters; at the end of the string return `NULL`; otherwise the token runs
to the next delimiter, which is overwritten by NUL, and the saved position
moves past it.  The result is the token and the text at the new position. -/
def strtok (delim : List Char) (s : CStr) : Option (CStr × CStr) :=
  let s1 := s.dropWhile (isDelim delim)
  if s1.isEmpty then none
  else some (s1.takeWhile (fun c => !isDelim delim c),
             (s1.dropWhile (fun c => !isDelim delim c)).drop 1)

/-- The loop `while (arg != NULL)` of `parseLine` followed by
`arguments[pos] = NULL`.  `arguments` holds the `pos` cells written so far;
`arg` is the last result of `strtok`.  The array has `MAXARGS` cells, so a
store at `pos >= MAXARGS` is undefined. -/
def parseLoop : Nat → Option (CStr × CStr) → List (Option CStr) →
    Except Halt (List (Option CStr))
  | _, none, arguments =>
    if arguments.length < MAXARGS then .ok (arguments ++ [none]) else .error .undefined
  | 0, some _, _ => .error .fuel
  | fuel + 1, some (arg, rest), arguments =>
    if arguments.length < MAXARGS then
      parseLoop fuel (strtok delimiters rest) (arguments ++ [some arg])
    else .error .undefined

/-- Function `parseLine`: the tokens of `line` followed by `NULL`. -/
def parseLine (line : CStr) : Except Halt (List (Option CStr)) :=
  parseLoop line.length (strtok delimiters line) []

/-- Spec wording of the tokenisation: the maximal runs of non-delimiter
characters of the line, left to right. -/
def maximalRuns (line : CStr) : List CStr :=
  (line.splitOnP (isDelim delimiters)).filter (fun t => t ≠ [])

/-! ## Job table and built-ins -/

/-- Function `addBackgroundProc`: `backgroundProcesses[NUMBKGRND] = pid;
NUMBKGRND++`.  The array has 10 cells; a store outside it is undefined. -/
def addBackgroundProc (pid : Int) (s : Shell) : Except Halt Shell :=
  if 0 ≤ s.NUMBKGRND ∧ s.NUMBKGRND < 10 then
    .ok { s with
      backgroundProcesses := s.backgroundProcesses.set s.NUMBKGRND.toNat pid
      NUMBKGRND := s.NUMBKGRND + 1 }
  else .error .undefined

/-- Function `readLine`: the first `MAXBUFSIZE - 1` characters of the pending
line, or `none` when `fgets` fails and the buffer stays uninitialised. -/
def readLine (input : Option CStr) : Option CStr :=
  input.map (fun buffer => buffer.take (MAXBUFSIZE - 1))

/-- Function `cdCommand`: `chdir(dir)`, or `chdir(getenv("HOME"))` when `dir`
is `NULL`; returns 1 after `perror` on failure and 0 on success. -/
def cdCommand (env : Env) (dir : Option CStr) (s : Shell) : Int × Shell :=
  match dir with
  | some d =>
    let s1 := s.emit (.chdir (some d))
    if env.chdir (some d) ≠ 0 then (1, s1.emit (.perror (String.mk d))) else (0, s1)
  | none =>
    let value := env.home
    let s1 := s.emit (.chdir value)
    if env.chdir value ≠ 0 then (1, s1.emit (.perror "HOME")) else (0, s1)

/-- The text `statusCommand` writes for a status code. -/
def statusText (statusCode : Int) : String :=
  if statusCode = 0 ∨ statusCode = 1 then
    "exit value  " ++ toString statusCode ++ "\n"
  else
    "terminated by signal " ++ toString statusCode ++ "\n"

/-- Function `statusCommand`. -/
def statusCommand (statusCode : Int) (s : Shell) : Shell :=
  s.emit (.print (statusText statusCode))

/-! ## `runCommand`: the child -/

/-- The locals `in`, `inputFile`, `out`, `outputFile` of `runCommand`; a
buffer not yet written is `none`. -/
structure Redirect where
  in_ : Int
  inputFile : Option CStr
  out : Int
  outputFile : Option CStr
  deriving DecidableEq, Repr

/-- The loop `for (i = 0; args[i] != '\0'; i++)` of the child.  The argument
is the part `args[i..]` of the array; the result is that part after the loop.
`strcpy` into the 100-byte buffers needs a source of at most 99 characters,
and a `NULL` or missing source is undefined (`none`). -/
def scanArgs : List (Option CStr) → Redirect → Option (List (Option CStr) × Redirect)
  | [], _ => none
  | none :: rest, r => some (none :: rest, r)
  | some a :: rest, r =>
    if a = "<".toList then
      match rest with
      | some path :: _ =>
        if path.length < 100 then
          (scanArgs rest { r with in_ := 1, inputFile := some path }).map
            (fun q => (none :: q.1, q.2))
        else none
      | _ => none
    else if a = ">".toList then
      match rest with
      | some path :: _ =>
        if path.length < 100 then
          (scanArgs rest { r with out := 1, outputFile := some path }).map
            (fun q => (none :: q.1, q.2))
        else none
      | _ => none
    else
      (scanArgs rest r).map (fun q => (some a :: q.1, q.2))

/-- The argument vector `execvp` reads: the cells before the first `NULL`. -/
def execArgv : List (Option CStr) → List CStr
  | some a :: rest => a :: execArgv rest
  | _ => []

/-- The null device path. -/
def devNull : CStr := "/dev/null".toList

/-- The first part of the branch `pid == 0` of `runCommand`, in the child's own
copy of the memory: replace a trailing `&` by `NULL`, then run the redirection
scan.  The result is whether `&` was found, the array after the loop, and the
redirection locals; `none` is undefined behaviour. -/
def childScan (args : List (Option CStr)) (argNum : Nat) :
    Option (Bool × List (Option CStr) × Redirect) :=
  if argNum = 0 then none else
  match args.get? (argNum - 1) with
  | some (some last) =>
    let bg : Bool := last = "&".toList
    let args1 := if bg then args.set (argNum - 1) none else args
    (scanArgs args1 { in_ := 0, inputFile := none, out := 0, outputFile := none }).map
      (fun q => (bg, q.1, q.2))
  | _ => none

/-- The branch `pid == 0` of `runCommand`: after the scan, open the files,
bind `/dev/null` for a background command, and call `execvp`.  The local
`int background;` has no initialiser and is assigned only when `&` was found;
on the other path the test `background == 1` reads it uninitialised, which is
undefined.  `execvp` with `args[0] == NULL` is undefined as well. -/
def childProcess (env : Env) (args : List (Option CStr)) (argNum : Nat) : ChildEnd :=
  match childScan args argNum with
  | none => .undefined
  | some (bg, args2, r) =>
    let background : Option Int := if bg then some 1 else none
    let printed : List String :=
      if bg then ["background pid is " ++ toString env.childPid ++ "\n"] else []
    let inputFile := r.inputFile.getD []
    let outputFile := r.outputFile.getD []
    if r.in_ = 1 ∧ env.openIn inputFile = false then
      .exit 1 ("cannot open " ++ String.mk inputFile ++ " for input\n")
    else if r.out = 1 ∧ env.openOut outputFile = false then
      .exit 1 ("cannot open " ++ String.mk outputFile ++ " for output\n")
    else
      match background with
      | none => .undefined
      | some background =>
        if background = 1 ∧ r.in_ ≠ 1 ∧ env.openIn devNull = false then
          .exit 1 "cannot open /dev/null for input\n"
        else if background = 1 ∧ r.out ≠ 1 ∧ env.openOut devNull = false then
          .exit 1 "cannot open /dev/null for output\n"
        else
          match args2.head?.join with
          | none => .undefined
          | some file =>
            .exec {
              file := file
              argv := execArgv args2
              stdin := if r.in_ = 1 then some inputFile
                       else if background = 1 then some devNull else none
              stdout := if r.out = 1 then some outputFile
                        else if background = 1 then some devNull else none
              sigintIgnored := bg
              printed := printed }

/-! ## `runCommand`: the shell process -/

/-- The loop `do wpid = waitpid(pid, &status, WUNTRACED); while
(!WIFEXITED(status) && !WIFSIGNALED(status))`, over the statuses the
successive calls store.  When they run out the shell stays blocked. -/
def waitLoop (pid : Int) : List WaitStatus → Shell → Except Halt (WaitStatus × Shell)
  | [], _ => .error .blocked
  | status :: rest, s =>
    let s1 := s.emit (.waitpid pid false (some status))
    if !WIFEXITED status && !WIFSIGNALED status then waitLoop pid rest s1
    else .ok (status, s1)

/-- Function `runCommand`, as run by the process that called it.  The result
is the returned `int` and the new state; in the forked child the function
never returns and the result is `Halt.child`. -/
def runCommand (env : Env) (args : List (Option CStr)) (argNum : Nat) (s : Shell) :
    Except Halt (Int × Shell) :=
  if s.NUMFORKS ≥ MAXFORK then
    .ok (1, s.emit (.print "Forks reached maximum, need to exit\n"))
  else
    let pid := env.forkRet
    let s1 := { s.emit (.fork pid) with NUMFORKS := s.NUMFORKS + 1 }
    if pid = 0 then .error (.child (childProcess env args argNum))
    else if pid < 0 then .ok (1, s1.emit (.perror "smallsh"))
    else if argNum = 0 then .error .undefined
    else
      match args.get? (argNum - 1) with
      | some (some last) =>
        if last ≠ "&".toList then
          match waitLoop pid env.waits s1 with
          | .error h => .error h
          | .ok (status, s2) =>
            let s3 := { s2 with NUMFORKS := s2.NUMFORKS - 1 }
            if WIFEXITED status then .ok (WEXITSTATUS status, s3)
            else if WIFSIGNALED status then
              .ok (WTERMSIG status,
                s3.emit (.print ("terminated by signal: " ++ toString (WTERMSIG status) ++ "\n")))
            else if WIFSTOPPED status then
              .ok (WSTOPSIG status,
                s3.emit (.print ("stopped by delivery of signal: " ++
                  toString (WSTOPSIG status) ++ "\n")))
            else .error .undefined
        else
          match addBackgroundProc pid s1 with
          | .error h => .error h
          | .ok s2 => .ok (0, s2)
      | _ => .error .undefined

/-! ## `executeCommand` and `shellLoop` -/

/-- The loop of the `exit` built-in: `kill(backgroundProcesses[i], SIGTERM)`
for every non-zero cell. -/
def killJobs (s : Shell) : Shell :=
  (List.range 10).foldl
    (fun t i =>
      if t.backgroundProcesses.getD i 0 ≠ 0 then t.emit (.kill (t.backgroundProcesses.getD i 0))
      else t)
    s

/-- Function `executeCommand`: returns the loop flag (0 only for `exit`). -/
def executeCommand (env : Env) (args : List (Option CStr)) (argNum : Nat) (s : Shell) :
    Except Halt (Int × Shell) :=
  match args with
  | [] => .error .undefined
  | none :: _ => .ok (1, s)
  | some arg :: _ =>
    if arg.head? = some '#' then .ok (1, s)
    else if arg = "exit".toList then .ok (0, killJobs s)
    else if arg = "cd".toList then
      match args.get? 1 with
      | none => .error .undefined
      | some dir =>
        let r := cdCommand env dir s
        if r.1 = 0 then .ok (1, { r.2 with STATUSCODE := 0 })
        else if r.1 = 1 then .ok (1, { r.2 with STATUSCODE := 1 })
        else .ok (1, r.2)
    else if arg = "status".toList then .ok (1, statusCommand s.STATUSCODE s)
    else
      match runCommand env args argNum s with
      | .error h => .error h
      | .ok (status, s1) => .ok (1, { s1 with STATUSCODE := status })

/-- The body of the reaper loop for slot `i`. -/
def reapSlot (poll : Nat → WaitRet) (s : Shell) (i : Nat) : Shell :=
  let p := s.backgroundProcesses.getD i 0
  if p ≠ 0 then
    let s1 := s.emit (.waitpid p true
      (match poll i with
       | .changed st => some st
       | _ => none))
    let bkpid : Int :=
      match poll i with
      | .running => 0
      | .changed _ => p
      | .error => -1
    let status : WaitStatus :=
      match poll i with
      | .changed st => st
      | _ => s.status
    let s2 := { s1 with status := status }
    if WIFEXITED status && bkpid ≠ 0 then
      { s2.emit (.print ("background pid " ++ toString bkpid ++ " is done: exit value " ++
          toString (WEXITSTATUS status) ++ "\n")) with
        STATUSCODE := WEXITSTATUS status
        backgroundProcesses := s2.backgroundProcesses.set i 0
        NUMBKGRND := s2.NUMBKGRND - 1 }
    else if WIFSIGNALED status && bkpid ≠ 0 then
      { s2.emit (.print ("background pid " ++ toString bkpid ++
          " is done: terminated by signal " ++ toString (WTERMSIG status) ++ "\n")) with
        STATUSCODE := WTERMSIG status
        backgroundProcesses := s2.backgroundProcesses.set i 0
        NUMBKGRND := s2.NUMBKGRND - 1 }
    else s2
  else s

/-- The reaper loop `for (i = 0; i < 10; i++)` at the top of each cycle. -/
def reaperPass (poll : Nat → WaitRet) (s : Shell) : Shell :=
  (List.range 10).foldl (reapSlot poll) s

/-- The loop `while (args[i] != NULL)` counting the arguments. -/
def countArgs : List (Option CStr) → Except Halt Nat
  | [] => .error .undefined
  | none :: _ => .ok 0
  | some _ :: rest =>
    match countArgs rest with
    | .error h => .error h
    | .ok n => .ok (n + 1)

/-- One iteration of the `do ... while (loop == 1)` body of `shellLoop`:
reaper pass, prompt, `readLine`, `parseLine`, the count, the test of
`firstArg[0]`, and `executeCommand`.  Returns `loop` and the new state. -/
def shellLoopBody (env : Env) (s : Shell) : Except Halt (Int × Shell) :=
  let s1 := (reaperPass env.poll s).emit (.print ": ")
  match readLine env.input with
  | none => .error .undefined
  | some line =>
    match parseLine line with
    | .error h => .error h
    | .ok args =>
      match countArgs args with
      | .error h => .error h
      | .ok count =>
        match args.head? with
        | some (some firstArg) =>
          if firstArg.head? = some '\n' then .ok (1, s1)
          else executeCommand env args count s1
        | _ => .error .undefined

/-- The states at the head of the `do ... while` loop of `shellLoop` that are
reached through cycles free of undefined behaviour: a cycle that runs into an
undefined step (`Halt.undefined`) has no successor state here. -/
inductive Reachable : Shell → Prop where
  | init (status0 : WaitStatus) : Reachable (Shell.init status0)
  | cycle (env : Env) (s s1 : Shell) :
      Reachable s → shellLoopBody env s = .ok (1, s1) → Reachable s1

/-- Number of occupied (non-zero) cells of the job table. -/
def occupied (s : Shell) : Nat :=
  (s.backgroundProcesses.filter (fun p => p ≠ 0)).length

/-! ## Spec-side notions for the redirection scan -/

/-- Spec wording: a redirection marker is the token `<` or the token `>`. -/
def isMarker (t : CStr) : Bool := t = "<".toList || t = ">".toList

/-- Spec wording: the argument sequence after dropping a trailing `&`. -/
def dropAmp (tokens : List CStr) : List CStr :=
  if tokens.getLast? = some "&".toList then tokens.dropLast else tokens

/-- Spec wording: the token that follows the last occurrence of `marker`. -/
def pathAfter (marker : CStr) : List CStr → Option CStr
  | [] => none
  | t :: rest =>
    match pathAfter marker rest with
    | some p => some p
    | none => if t = marker then rest.head? else none

/-- The tokens a pending `strtok` result stands for. -/
def pendingTokens : Option (CStr × CStr) → List CStr
  | none => []
  | some (tok, rest) => tok :: maximalRuns rest

/-- A line of 512 one-letter tokens, 1024 characters long. -/
def crowdedLine : CStr := (List.replicate 512 "a ".toList).flatten

/-- A path of 100 characters. -/
def longPath : CStr := List.replicate 100 'a'

/-- Decision procedure for the hypothesis of the scan: every marker of the
sequence is followed by a token of at most 99 characters. -/
def followOk : List CStr → Bool
  | [] => true
  | t :: rest =>
    (!isMarker t ||
      (match rest with
       | p :: _ => decide (p.length ≤ 99)
       | [] => false)) && followOk rest

/-! ## Scenarios -/

/-- An environment in which no job changes state, the input is at its end,
`chdir` and `open` succeed, and `fork` fails. -/
def quietEnv : Env :=
  { poll := fun _ => .running, input := none, chdir := fun _ => 0, home := none,
    forkRet := -1, waits := [], openIn := fun _ => true, openOut := fun _ => true,
    childPid := 0 }

/-- The user types `line`; `fork`, if called, returns `pid`; the foreground
`waitpid` calls store `waits`. -/
def typed (line : String) (pid : Int) (waits : List WaitStatus) : Env :=
  { quietEnv with input := some line.toList, forkRet := pid, waits := waits }

/-- As `env`, but the reaper finds the job of slot `slot` terminated with
status `st`. -/
def reaping (slot : Nat) (st : WaitStatus) (env : Env) : Env :=
  { env with poll := fun i => if i = slot then .changed st else .running }

/-- As `env`, but `chdir` fails. -/
def chdirFails (env : Env) : Env :=
  { env with chdir := fun _ => -1 }

/-- Function `shellLoop`: the loop `do ... while (loop == 1)`, run over the
environments of its successive cycles.  It stops when a cycle sets `loop` to a
value other than 1, or when the list is used up.  The result is the last loop
flag and state. -/
def shellLoop : List Env → Shell → Except Halt (Int × Shell)
  | [], s => .ok (1, s)
  | env :: rest, s =>
    match shellLoopBody env s with
    | .error h => .error h
    | .ok r => if r.1 = 1 then shellLoop rest r.2 else .ok r

/-- Spec wording: the number of spawned children not yet waited for, read off
the trace: successful forks minus `waitpid` calls that collected a terminated
child. -/
def liveChildren (trace : List Event) : Int :=
  ((trace.filter (fun e =>
      match e with
      | .fork ret => decide (0 < ret)
      | _ => false)).length : Int) -
  ((trace.filter (fun e =>
      match e with
      | .waitpid _ _ (some (.exited _)) => true
      | .waitpid _ _ (some (.signaled _)) => true
      | _ => false)).length : Int)

/-- The tokens of the line `sort -r < in.txt > out.txt &`. -/
def backgroundSort : List CStr :=
  ["sort".toList, "-r".toList, "<".toList, "in.txt".toList, ">".toList, "out.txt".toList,
    "&".toList]

/-- The state after the two lines `sleep 1 &` and `sleep 100 &`, with `fork`
returning 101 and then 102. -/
def twoJobs : Shell :=
  { STATUSCODE := 0, NUMFORKS := 2, backgroundProcesses := [101, 102, 0, 0, 0, 0, 0, 0, 0, 0],
    NUMBKGRND := 2, status := .other,
    trace := [.print ": ", .fork 101, .waitpid 101 true none, .print ": ", .fork 102] }

/-- The argument array of the line `sleep 5 &`. -/
def sleepBackground : List (Option CStr) :=
  [some "sleep".toList, some "5".toList, some "&".toList, none]

/-- Eleven background launches in a row, with process ids 201 to 211 and no
job terminating in between. -/
def elevenLaunches : List Env :=
  (List.range 11).map (fun i => typed "sleep 9 &\n" (201 + (i : Int)) [])

/-! ## Tokenisation -/

theorem isDelim_iff (c : Char) : isDelim delimiters c = true ↔ c ∈ delimiters := by
  simp [isDelim]

theorem maximalRuns_nil : maximalRuns [] = [] := by
  simp [maximalRuns]

theorem maximalRuns_cons_delim (c : Char) (cs : CStr) (h : isDelim delimiters c = true) :
    maximalRuns (c :: cs) = maximalRuns cs := by
  simp [maximalRuns, List.splitOnP_cons, h]

theorem maximalRuns_dropWhile (s : CStr) :
    maximalRuns (s.dropWhile (isDelim delimiters)) = maximalRuns s := by
  induction s with
  | nil => rfl
  | cons c cs ih =>
    by_cases h : isDelim delimiters c = true
    · rw [List.dropWhile_cons_of_pos h, ih, maximalRuns_cons_delim c cs h]
    · rw [List.dropWhile_cons_of_neg h]

theorem maximalRuns_single (t : CStr) (ht : t ≠ [])
    (hd : ∀ c ∈ t, ¬ isDelim delimiters c = true) : maximalRuns t = [t] := by
  simp [maximalRuns, List.splitOnP_eq_single _ _ hd, ht]

theorem maximalRuns_first (t : CStr) (ht : t ≠ [])
    (hd : ∀ c ∈ t, ¬ isDelim delimiters c = true) (d : Char)
    (hdel : isDelim delimiters d = true) (rest : CStr) :
    maximalRuns (t ++ d :: rest) = t :: maximalRuns rest := by
  simp [maximalRuns, List.splitOnP_first _ _ hd d hdel, ht]

theorem strtok_none (s : CStr) (h : strtok delimiters s = none) : maximalRuns s = [] := by
  unfold strtok at h
  simp only at h
  split at h
  · rename_i he
    rw [← maximalRuns_dropWhile, List.isEmpty_iff.mp he, maximalRuns_nil]
  · cases h

theorem strtok_some (s tok rest : CStr) (h : strtok delimiters s = some (tok, rest)) :
    maximalRuns s = tok :: maximalRuns rest ∧ rest.length < s.length ∧ tok ≠ [] ∧
      ∀ c ∈ tok, ¬ isDelim delimiters c = true := by
  unfold strtok at h
  simp only at h
  split at h
  · cases h
  · rename_i he
    simp only [Option.some.injEq, Prod.mk.injEq] at h
    obtain ⟨h1, h2⟩ := h
    generalize hs1 : s.dropWhile (isDelim delimiters) = s1 at *
    have hlen : s1.length ≤ s.length := by
      rw [← hs1]; exact (List.dropWhile_sublist _).length_le
    have hne : s1 ≠ [] := by
      intro h0; simp [h0] at he
    have hhead : ∀ c cs, s1 = c :: cs → ¬ isDelim delimiters c = true := by
      intro c cs hc
      have := List.head_dropWhile_not (isDelim delimiters) s (by rw [hs1]; exact hne)
      simp only [hs1, hc, List.head_cons] at this
      simp [this]
    have htd : ∀ c ∈ tok, ¬ isDelim delimiters c = true := by
      intro c hc
      rw [← h1] at hc
      have := List.mem_takeWhile_imp hc
      simpa using this
    have htne : tok ≠ [] := by
      cases hs : s1 with
      | nil => exact absurd hs hne
      | cons c cs =>
        have := hhead c cs hs
        rw [← h1, hs, List.takeWhile_cons]
        simp [this]
    have hsplit : s1 = tok ++ s1.dropWhile (fun c => !isDelim delimiters c) := by
      rw [← h1]; exact (List.takeWhile_append_dropWhile _ _).symm
    refine ⟨?_, ?_, htne, htd⟩
    · rw [← maximalRuns_dropWhile, hs1]
      cases hdw : s1.dropWhile (fun c => !isDelim delimiters c) with
      | nil =>
        rw [hdw] at hsplit h2
        simp only [List.drop_nil] at h2
        rw [← h2, maximalRuns_nil, hsplit, List.append_nil]
        exact maximalRuns_single tok htne htd
      | cons d ds =>
        rw [hdw] at hsplit h2
        simp only [List.drop_succ_cons, List.drop_zero] at h2
        have hdel : isDelim delimiters d = true := by
          have := List.head_dropWhile_not (fun c => !isDelim delimiters c) s1
            (by rw [hdw]; simp)
          simp only [hdw, List.head_cons] at this
          simpa using this
        rw [← h2]
        conv_lhs => rw [hsplit]
        exact maximalRuns_first tok htne htd d hdel ds
    · have h3 : rest.length ≤ (s1.dropWhile (fun c => !isDelim delimiters c)).length := by
        rw [← h2]; simp
      have h4 : s1.length = tok.length +
          (s1.dropWhile (fun c => !isDelim delimiters c)).length := by
        conv_lhs => rw [hsplit]
        simp
      have h5 : 0 < tok.length := List.length_pos.mpr htne
      omega

theorem pendingTokens_strtok (s : CStr) : pendingTokens (strtok delimiters s) = maximalRuns s := by
  cases h : strtok delimiters s with
  | none => simp [pendingTokens, strtok_none s h]
  | some p =>
    obtain ⟨tok, rest⟩ := p
    simp [pendingTokens, (strtok_some s tok rest h).1]

theorem parseLoop_eq (fuel : Nat) :
    ∀ (arg : Option (CStr × CStr)) (arguments : List (Option CStr)),
      (∀ tok rest, arg = some (tok, rest) → rest.length < fuel) →
      parseLoop fuel arg arguments =
        if arguments.length + (pendingTokens arg).length < MAXARGS then
          .ok (arguments ++ (pendingTokens arg).map some ++ [none])
        else .error .undefined := by
  induction fuel with
  | zero =>
    intro arg arguments hf
    cases arg with
    | none => simp [parseLoop, pendingTokens]
    | some p => exact absurd (hf p.1 p.2 rfl) (Nat.not_lt_zero _)
  | succ n ih =>
    intro arg arguments hf
    cases arg with
    | none => simp [parseLoop, pendingTokens]
    | some p =>
      obtain ⟨tok, rest⟩ := p
      have hr := hf tok rest rfl
      simp only [parseLoop]
      have hnext : ∀ tok1 rest1, strtok delimiters rest = some (tok1, rest1) →
          rest1.length < n := by
        intro tok1 rest1 h1
        have := (strtok_some rest tok1 rest1 h1).2.1
        omega
      rw [ih _ _ hnext, pendingTokens_strtok]
      simp only [pendingTokens, List.length_cons, List.length_append, List.length_singleton,
        List.map_cons]
      by_cases h1 : arguments.length < MAXARGS
      · simp only [h1, if_true]
        by_cases h2 : arguments.length + 1 + (maximalRuns rest).length < MAXARGS
        · have h3 : arguments.length + ((maximalRuns rest).length + 1) < MAXARGS := by omega
          simp [h2, h3]
        · have h3 : ¬ arguments.length + ((maximalRuns rest).length + 1) < MAXARGS := by omega
          simp [h2, h3]
      · have h3 : ¬ arguments.length + ((maximalRuns rest).length + 1) < MAXARGS := by omega
        simp [h1, h3]

theorem parseLine_eq (line : CStr) :
    parseLine line =
      if (maximalRuns line).length < MAXARGS then
        .ok ((maximalRuns line).map some ++ [none])
      else .error .undefined := by
  unfold parseLine
  rw [parseLoop_eq, pendingTokens_strtok]
  · simp
  · intro tok rest h
    exact (strtok_some line tok rest h).2.1

theorem maximalRuns_clean_aux (n : Nat) :
    ∀ line : CStr, line.length ≤ n →
      ∀ t ∈ maximalRuns line, t ≠ [] ∧ ∀ c ∈ t, c ∉ delimiters := by
  induction n with
  | zero =>
    intro line hl t ht
    have : line = [] := List.length_eq_zero.mp (Nat.le_zero.mp hl)
    rw [this, maximalRuns_nil] at ht
    cases ht
  | succ n ih =>
    intro line hl t ht
    cases h : strtok delimiters line with
    | none => rw [strtok_none line h] at ht; cases ht
    | some p =>
      obtain ⟨tok, rest⟩ := p
      obtain ⟨h1, h2, h3, h4⟩ := strtok_some line tok rest h
      rw [h1] at ht
      rcases List.mem_cons.mp ht with rfl | ht
      · exact ⟨h3, fun c hc hd => h4 c hc ((isDelim_iff c).mpr hd)⟩
      · exact ih rest (by omega) t ht

theorem maximalRuns_clean (line : CStr) :
    ∀ t ∈ maximalRuns line, t ≠ [] ∧ ∀ c ∈ t, c ∉ delimiters :=
  maximalRuns_clean_aux line.length line (Nat.le_refl _)


theorem maximalRuns_replicate (n : Nat) :
    maximalRuns (List.replicate n "a ".toList).flatten = List.replicate n "a".toList := by
  induction n with
  | zero => rfl
  | succ n ih =>
    rw [List.replicate_succ, List.flatten_cons, List.replicate_succ, ← ih]
    exact maximalRuns_first "a".toList (by decide) (by decide) ' ' (by decide) _

theorem length_replicate_flatten (n : Nat) :
    (List.replicate n "a ".toList).flatten.length = 2 * n := by
  induction n with
  | zero => rfl
  | succ n ih =>
    rw [List.replicate_succ, List.flatten_cons, List.length_append, ih]
    simp only [String.toList, List.length_cons, List.length_nil]
    omega

/-- C9 (as amended).  For every input line with at most 511 tokens, `parseLine` returns exactly
the maximal runs of non-delimiter characters of the line, in order, followed by the `NULL` end
marker; no token is empty or contains a delimiter; `"ls -l  /tmp"` yields `ls`, `-l`, `/tmp`. -/
theorem parseLine_maximalRuns (line : CStr) (h : (maximalRuns line).length < MAXARGS) :
    parseLine line = .ok ((maximalRuns line).map some ++ [none]) ∧
    (∀ t ∈ maximalRuns line, t ≠ [] ∧ ∀ c ∈ t, c ∉ delimiters) ∧
    parseLine "ls -l  /tmp".toList =
      .ok [some "ls".toList, some "-l".toList, some "/tmp".toList, none] := by
  refine ⟨?_, maximalRuns_clean line, by decide⟩
  rw [parseLine_eq, if_pos h]

/-- The tokenisation theorem at the line `cat < in`. -/
theorem parseLine_maximalRuns_witness :
    (maximalRuns "cat < in".toList).length < MAXARGS ∧
    parseLine "cat < in".toList = .ok ((maximalRuns "cat < in".toList).map some ++ [none]) :=
  ⟨by decide, (parseLine_maximalRuns "cat < in".toList (by decide)).1⟩

/-- C9 fails as stated: a line of 512 one-letter tokens makes `parseLine` store outside its
array of `MAXARGS` cells, so no token sequence is returned. -/
theorem parseLine_crowded :
    (maximalRuns crowdedLine).length = 512 ∧ crowdedLine.length = 1024 ∧
    parseLine crowdedLine = .error .undefined := by
  have h : maximalRuns crowdedLine = List.replicate 512 "a".toList := maximalRuns_replicate 512
  refine ⟨by rw [h, List.length_replicate], length_replicate_flatten 512, ?_⟩
  rw [parseLine_eq, h, List.length_replicate, if_neg (by decide)]

/-! ## The redirection scan -/

/-- The hypothesis of the scan in recursive form: every marker is followed by
a token of at most 99 characters. -/
theorem follow_tail (t : CStr) (rest : List CStr)
    (h : ∀ (i : Nat) (m : CStr), (t :: rest)[i]? = some m → isMarker m = true →
      ∃ p, (t :: rest)[i + 1]? = some p ∧ p.length ≤ 99) :
    ∀ (i : Nat) (m : CStr), rest[i]? = some m → isMarker m = true →
      ∃ p, rest[i + 1]? = some p ∧ p.length ≤ 99 := by
  intro i m hm hk
  have := h (i + 1) m (by simpa using hm) hk
  simpa using this

theorem follow_head (t : CStr) (rest : List CStr)
    (h : ∀ (i : Nat) (m : CStr), (t :: rest)[i]? = some m → isMarker m = true →
      ∃ p, (t :: rest)[i + 1]? = some p ∧ p.length ≤ 99)
    (ht : isMarker t = true) :
    ∃ p tl, rest = p :: tl ∧ p.length ≤ 99 := by
  obtain ⟨p, hp, hl⟩ := h 0 t (by simp) ht
  cases rest with
  | nil => simp at hp
  | cons q tl =>
    simp at hp
    exact ⟨q, tl, rfl, hp ▸ hl⟩

theorem scanArgs_in (p : CStr) (rest : List (Option CStr)) (r : Redirect)
    (hp : p.length < 100) :
    scanArgs (some "<".toList :: some p :: rest) r =
      (scanArgs (some p :: rest) { r with in_ := 1, inputFile := some p }).map
        (fun q => (none :: q.1, q.2)) := by
  rw [scanArgs]
  simp only [if_true, hp]

theorem scanArgs_out (p : CStr) (rest : List (Option CStr)) (r : Redirect)
    (hp : p.length < 100) :
    scanArgs (some ">".toList :: some p :: rest) r =
      (scanArgs (some p :: rest) { r with out := 1, outputFile := some p }).map
        (fun q => (none :: q.1, q.2)) := by
  rw [scanArgs]
  have hne : ">".toList ≠ "<".toList := by decide
  simp only [hne, if_false, if_true, hp]

theorem scanArgs_plain (a : CStr) (rest : List (Option CStr)) (r : Redirect)
    (h1 : a ≠ "<".toList) (h2 : a ≠ ">".toList) :
    scanArgs (some a :: rest) r =
      (scanArgs rest r).map (fun q => (some a :: q.1, q.2)) := by
  rcases rest with _ | ⟨_ | x, tl⟩ <;> simp only [scanArgs, h1, h2, if_false]

theorem isMarker_in : isMarker "<".toList = true := by decide

theorem isMarker_out : isMarker ">".toList = true := by decide

theorem isMarker_plain (t : CStr) (h1 : t ≠ "<".toList) (h2 : t ≠ ">".toList) :
    isMarker t = false := by
  unfold isMarker
  rw [decide_eq_false h1, decide_eq_false h2]
  rfl

theorem mem_cons_self_if (t : CStr) (rest : List CStr) (a b : Int) :
    (if t ∈ t :: rest then a else b) = a :=
  if_pos (List.mem_cons_self _ _)

theorem mem_cons_other_if (m t : CStr) (rest : List CStr) (a b : Int) (h : m ≠ t) :
    (if m ∈ t :: rest then a else b) = (if m ∈ rest then a else b) := by
  by_cases hm : m ∈ rest
  · rw [if_pos hm, if_pos (List.mem_cons_of_mem _ hm)]
  · rw [if_neg hm, if_neg]
    intro hc
    rcases List.mem_cons.mp hc with h0 | h0
    · exact h h0
    · exact hm h0

theorem pathAfter_cons (m t : CStr) (rest : List CStr) :
    pathAfter m (t :: rest) =
      match pathAfter m rest with
      | some p => some p
      | none => if t = m then rest.head? else none := rfl

theorem scanArgs_spec (body : List CStr) :
    ∀ (tl : List (Option CStr)) (r : Redirect),
      (∀ (i : Nat) (m : CStr), body[i]? = some m → isMarker m = true →
        ∃ p, body[i + 1]? = some p ∧ p.length ≤ 99) →
      ∃ (cells : List (Option CStr)) (r1 : Redirect),
        scanArgs (body.map some ++ none :: tl) r = some (cells, r1) ∧
        execArgv cells = body.takeWhile (fun t => !isMarker t) ∧
        cells.head?.join = (body.takeWhile (fun t => !isMarker t)).head? ∧
        r1.in_ = (if "<".toList ∈ body then 1 else r.in_) ∧
        r1.out = (if ">".toList ∈ body then 1 else r.out) ∧
        r1.inputFile = (match pathAfter "<".toList body with
          | some p => some p
          | none => r.inputFile) ∧
        r1.outputFile = (match pathAfter ">".toList body with
          | some p => some p
          | none => r.outputFile) := by
  induction body with
  | nil =>
    intro tl r _
    exact ⟨none :: tl, r, rfl, rfl, rfl, rfl, rfl, rfl, rfl⟩
  | cons t rest ih =>
    intro tl r h
    have htail := follow_tail t rest h
    have hlg : "<".toList ≠ ">".toList := by decide
    by_cases h1 : t = "<".toList
    · obtain ⟨p, tl1, hrest, hp⟩ := follow_head t rest h (h1 ▸ isMarker_in)
      obtain ⟨cells, r1, hs, _, _, hin, hout, hif, hof⟩ :=
        ih tl { r with in_ := 1, inputFile := some p } htail
      have hhead : rest.head? = some p := by rw [hrest]; rfl
      refine ⟨none :: cells, r1, ?_, ?_, ?_, ?_, ?_, ?_, ?_⟩
      · have hshape : (t :: rest).map some ++ none :: tl =
            some "<".toList :: some p :: (tl1.map some ++ none :: tl) := by
          rw [h1, hrest]; rfl
        have hshape1 : rest.map some ++ none :: tl = some p :: (tl1.map some ++ none :: tl) := by
          rw [hrest]; rfl
        rw [hshape, scanArgs_in p _ r (by omega), ← hshape1, hs]
        rfl
      · rw [List.takeWhile_cons, h1, isMarker_in]; rfl
      · rw [List.takeWhile_cons, h1, isMarker_in]; rfl
      · rw [hin, h1, mem_cons_self_if]
        by_cases hm : "<".toList ∈ rest
        · rw [if_pos hm]
        · rw [if_neg hm]
      · rw [hout, h1, mem_cons_other_if _ _ _ _ _ hlg.symm]
      · rw [hif, pathAfter_cons, hhead, if_pos h1]
        cases pathAfter "<".toList rest <;> rfl
      · rw [hof, pathAfter_cons, if_neg (h1 ▸ hlg)]
        cases pathAfter ">".toList rest <;> rfl
    · by_cases h2 : t = ">".toList
      · obtain ⟨p, tl1, hrest, hp⟩ := follow_head t rest h (h2 ▸ isMarker_out)
        obtain ⟨cells, r1, hs, _, _, hin, hout, hif, hof⟩ :=
          ih tl { r with out := 1, outputFile := some p } htail
        have hhead : rest.head? = some p := by rw [hrest]; rfl
        refine ⟨none :: cells, r1, ?_, ?_, ?_, ?_, ?_, ?_, ?_⟩
        · have hshape : (t :: rest).map some ++ none :: tl =
              some ">".toList :: some p :: (tl1.map some ++ none :: tl) := by
            rw [h2, hrest]; rfl
          have hshape1 : rest.map some ++ none :: tl =
              some p :: (tl1.map some ++ none :: tl) := by
            rw [hrest]; rfl
          rw [hshape, scanArgs_out p _ r (by omega), ← hshape1, hs]
          rfl
        · rw [List.takeWhile_cons, h2, isMarker_out]; rfl
        · rw [List.takeWhile_cons, h2, isMarker_out]; rfl
        · rw [hin, h2, mem_cons_other_if _ _ _ _ _ hlg]
        · rw [hout, h2, mem_cons_self_if]
          by_cases hm : ">".toList ∈ rest
          · rw [if_pos hm]
          · rw [if_neg hm]
        · rw [hif, pathAfter_cons, if_neg h1]
          cases pathAfter "<".toList rest <;> rfl
        · rw [hof, pathAfter_cons, hhead, if_pos h2]
          cases pathAfter ">".toList rest <;> rfl
      · obtain ⟨cells, r1, hs, hargv, hfile, hin, hout, hif, hof⟩ := ih tl r htail
        have hm : isMarker t = false := isMarker_plain t h1 h2
        refine ⟨some t :: cells, r1, ?_, ?_, ?_, ?_, ?_, ?_, ?_⟩
        · have hshape : (t :: rest).map some ++ none :: tl =
              some t :: (rest.map some ++ none :: tl) := rfl
          rw [hshape, scanArgs_plain t _ r h1 h2, hs]
          rfl
        · rw [List.takeWhile_cons, hm, ← hargv]; rfl
        · rw [List.takeWhile_cons, hm]; rfl
        · rw [hin, mem_cons_other_if _ _ _ _ _ (Ne.symm h1)]
        · rw [hout, mem_cons_other_if _ _ _ _ _ (Ne.symm h2)]
        · rw [hif, pathAfter_cons, if_neg h1]
          cases pathAfter "<".toList rest <;> rfl
        · rw [hof, pathAfter_cons, if_neg h2]
          cases pathAfter ">".toList rest <;> rfl


theorem pathAfter_not_mem (m : CStr) (body : List CStr) (h : m ∉ body) :
    pathAfter m body = none := by
  induction body with
  | nil => rfl
  | cons t rest ih =>
    have h1 : m ∉ rest := fun e => h (List.mem_cons_of_mem _ e)
    have h2 : t ≠ m := fun e => h (e ▸ List.mem_cons_self _ _)
    rw [pathAfter_cons, ih h1, if_neg h2]

theorem pathAfter_mem (m : CStr) (hm : isMarker m = true) (body : List CStr) :
    (∀ (i : Nat) (k : CStr), body[i]? = some k → isMarker k = true →
      ∃ p, body[i + 1]? = some p ∧ p.length ≤ 99) →
    m ∈ body → ∃ p, pathAfter m body = some p := by
  induction body with
  | nil => intro _ h; cases h
  | cons t rest ih =>
    intro hf hmem
    rw [pathAfter_cons]
    cases hpa : pathAfter m rest with
    | some p => exact ⟨p, rfl⟩
    | none =>
      have hnot : m ∉ rest := by
        intro hin
        obtain ⟨p, hp⟩ := ih (follow_tail t rest hf) hin
        rw [hpa] at hp
        cases hp
      have htm : t = m := by
        rcases List.mem_cons.mp hmem with h0 | h0
        · exact h0.symm
        · exact absurd h0 hnot
      obtain ⟨p, tl, hrest, _⟩ := follow_head t rest hf (htm ▸ hm)
      refine ⟨p, ?_⟩
      simp only [htm, if_true, hrest, List.head?_cons]

theorem not_mem_of_no_marker (m : CStr) (hm : isMarker m = true) (body : List CStr)
    (h : ∀ t ∈ body, isMarker t = false) : m ∉ body := by
  intro hin
  have := h m hin
  rw [hm] at this
  cases this

theorem childScan_tokens (tokens : List CStr) (hne : tokens ≠ [])
    (hfollow : ∀ (i : Nat) (m : CStr), (dropAmp tokens)[i]? = some m → isMarker m = true →
      ∃ p, (dropAmp tokens)[i + 1]? = some p ∧ p.length ≤ 99) :
    ∃ (bg : Bool) (cells : List (Option CStr)) (r : Redirect),
      childScan (tokens.map some ++ [none]) tokens.length = some (bg, cells, r) ∧
      (bg = true ↔ tokens.getLast? = some "&".toList) ∧
      execArgv cells = (dropAmp tokens).takeWhile (fun t => !isMarker t) ∧
      cells.head?.join = ((dropAmp tokens).takeWhile (fun t => !isMarker t)).head? ∧
      r.in_ = (if "<".toList ∈ dropAmp tokens then 1 else 0) ∧
      r.out = (if ">".toList ∈ dropAmp tokens then 1 else 0) ∧
      r.inputFile = pathAfter "<".toList (dropAmp tokens) ∧
      r.outputFile = pathAfter ">".toList (dropAmp tokens) := by
  rcases List.eq_nil_or_concat tokens with h0 | ⟨init, last, hcat⟩
  · exact absurd h0 hne
  · rw [List.concat_eq_append] at hcat
    subst hcat
    have hlen : (init ++ [last]).length - 1 = init.length := by simp
    have hpos : ¬ (init ++ [last]).length = 0 := by simp
    have hget : (List.map some (init ++ [last]) ++ [none]).get? ((init ++ [last]).length - 1) =
        some (some last) := by
      rw [hlen, List.get?_eq_getElem?, List.map_append, List.append_assoc,
        List.getElem?_append_right (by simp)]
      simp
    have hlast : (init ++ [last]).getLast? = some last := by simp
    by_cases hamp : last = "&".toList
    · have hdrop : dropAmp (init ++ [last]) = init := by
        unfold dropAmp
        rw [hlast, hamp, if_pos rfl, List.dropLast_concat]
      rw [hdrop] at hfollow
      obtain ⟨cells, r, hs, h1, h2, h3, h4, h5, h6⟩ :=
        scanArgs_spec init [none]
          { in_ := 0, inputFile := none, out := 0, outputFile := none } hfollow
      have hset : (List.map some (init ++ [last]) ++ [none]).set init.length none =
          init.map some ++ none :: [none] := by
        simp [List.map_append, List.set_append]
      refine ⟨true, cells, r, ?_, ?_, ?_, ?_, by rw [hdrop]; exact h3, by rw [hdrop]; exact h4,
        ?_, ?_⟩
      · unfold childScan
        rw [if_neg hpos, hget]
        simp only [hamp, decide_True, if_true]
        rw [← hamp, hlen, hset, hs]
        rfl
      · rw [hlast, hamp]; simp
      · rw [hdrop]; exact h1
      · rw [hdrop]; exact h2
      · rw [hdrop, h5]; cases pathAfter "<".toList init <;> rfl
      · rw [hdrop, h6]; cases pathAfter ">".toList init <;> rfl
    · have hdrop : dropAmp (init ++ [last]) = init ++ [last] := by
        unfold dropAmp
        rw [hlast, if_neg]
        intro hc
        exact hamp (Option.some.inj hc)
      rw [hdrop] at hfollow
      obtain ⟨cells, r, hs, h1, h2, h3, h4, h5, h6⟩ :=
        scanArgs_spec (init ++ [last]) []
          { in_ := 0, inputFile := none, out := 0, outputFile := none } hfollow
      refine ⟨false, cells, r, ?_, ?_, ?_, ?_, by rw [hdrop]; exact h3, by rw [hdrop]; exact h4,
        ?_, ?_⟩
      · unfold childScan
        rw [if_neg hpos, hget]
        simp only [hamp, decide_False, if_false, Bool.false_eq_true, hs, Option.map_some']
      · rw [hlast]
        constructor
        · intro hc; cases hc
        · intro hc; exact absurd (Option.some.inj hc) hamp
      · rw [hdrop]; exact h1
      · rw [hdrop]; exact h2
      · rw [hdrop, h5]; cases pathAfter "<".toList (init ++ [last]) <;> rfl
      · rw [hdrop, h6]; cases pathAfter ">".toList (init ++ [last]) <;> rfl


theorem followOk_sound (body : List CStr) (h : followOk body = true) :
    ∀ (i : Nat) (m : CStr), body[i]? = some m → isMarker m = true →
      ∃ p, body[i + 1]? = some p ∧ p.length ≤ 99 := by
  induction body with
  | nil => intro i m hm; simp at hm
  | cons t rest ih =>
    simp only [followOk, Bool.and_eq_true, Bool.or_eq_true] at h
    intro i m hm hk
    cases i with
    | zero =>
      simp only [List.getElem?_cons_zero, Option.some.injEq] at hm
      subst hm
      rcases h.1 with h1 | h1
      · rw [hk] at h1; cases h1
      · cases rest with
        | nil => cases h1
        | cons p tl => exact ⟨p, by simp, of_decide_eq_true h1⟩
    | succ j =>
      have := ih h.2 j m (by simpa using hm) hk
      simpa using this

theorem chain_exec_inj (c1 c2 c3 c4 : Prop) [Decidable c1] [Decidable c2] [Decidable c3]
    [Decidable c4] (m1 m2 m3 m4 : String) (x call : ExecCall)
    (h : (if c1 then ChildEnd.exit 1 m1 else if c2 then ChildEnd.exit 1 m2
      else if c3 then ChildEnd.exit 1 m3 else if c4 then ChildEnd.exit 1 m4
      else ChildEnd.exec x) = ChildEnd.exec call) : x = call := by
  split_ifs at h
  exact ChildEnd.exec.inj h

theorem chain_defined (c1 c2 c3 c4 : Prop) [Decidable c1] [Decidable c2] [Decidable c3]
    [Decidable c4] (m1 m2 m3 m4 : String) (x : ExecCall) :
    (if c1 then ChildEnd.exit 1 m1 else if c2 then ChildEnd.exit 1 m2
      else if c3 then ChildEnd.exit 1 m3 else if c4 then ChildEnd.exit 1 m4
      else ChildEnd.exec x) ≠ ChildEnd.undefined := by
  split_ifs <;> exact fun h => ChildEnd.noConfusion h

theorem chain_exec (c1 c2 c3 c4 : Prop) [Decidable c1] [Decidable c2] [Decidable c3]
    [Decidable c4] (m1 m2 m3 m4 : String) (x : ExecCall)
    (h1 : ¬ c1) (h2 : ¬ c2) (h3 : ¬ c3) (h4 : ¬ c4) :
    (if c1 then ChildEnd.exit 1 m1 else if c2 then ChildEnd.exit 1 m2
      else if c3 then ChildEnd.exit 1 m3 else if c4 then ChildEnd.exit 1 m4
      else ChildEnd.exec x) = ChildEnd.exec x := by
  rw [if_neg h1, if_neg h2, if_neg h3, if_neg h4]

theorem chain_no_exec (c1 c2 : Prop) [Decidable c1] [Decidable c2] (m1 m2 : String)
    (call : ExecCall)
    (h : (if c1 then ChildEnd.exit 1 m1 else if c2 then ChildEnd.exit 1 m2
      else ChildEnd.undefined) = ChildEnd.exec call) : False := by
  split_ifs at h

theorem dropAmp_nil : dropAmp [] = [] := rfl

/-- C8 (as amended).  For every token sequence that, after dropping a trailing `&`, starts
with a token that is not a marker and in which each `<` or `>` is followed by a token of at
most 99 characters: the redirection scan in the child is defined; the array it leaves for
`execvp` has `args[0]` equal to the first token and, up to its first `NULL`, exactly the tokens
before the first `<` or `>` (or the trailing `&`); the input path is the token following the
last `<` and the output path the token following the last `>`; with no marker present the
argument list is the whole sequence and no redirection flag or path is set.  Every `execvp`
call the child makes carries that program name, that argument list and those files, and a
command with a trailing `&` is free of undefined behaviour and reaches `execvp` when its
`open` calls succeed. -/
theorem child_redirection (env : Env) (tokens : List CStr) (first : CStr) (rest : List CStr)
    (hfirst : dropAmp tokens = first :: rest) (hmark : isMarker first = false)
    (hfollow : ∀ (i : Nat) (m : CStr), (dropAmp tokens)[i]? = some m → isMarker m = true →
      ∃ p, (dropAmp tokens)[i + 1]? = some p ∧ p.length ≤ 99) :
    (∃ (bg : Bool) (cells : List (Option CStr)) (r : Redirect),
      childScan (tokens.map some ++ [none]) tokens.length = some (bg, cells, r) ∧
      (bg = true ↔ tokens.getLast? = some "&".toList) ∧
      cells.head?.join = some first ∧
      execArgv cells = (dropAmp tokens).takeWhile (fun t => !isMarker t) ∧
      r.inputFile = pathAfter "<".toList (dropAmp tokens) ∧
      r.outputFile = pathAfter ">".toList (dropAmp tokens) ∧
      (r.in_ = 1 ↔ "<".toList ∈ dropAmp tokens) ∧
      (r.out = 1 ↔ ">".toList ∈ dropAmp tokens) ∧
      ((∀ t ∈ dropAmp tokens, isMarker t = false) →
        execArgv cells = dropAmp tokens ∧ r.in_ = 0 ∧ r.out = 0 ∧
        r.inputFile = none ∧ r.outputFile = none)) ∧
    (∀ call : ExecCall,
      childProcess env (tokens.map some ++ [none]) tokens.length = .exec call →
      call.file = first ∧
      call.argv = (dropAmp tokens).takeWhile (fun t => !isMarker t) ∧
      ("<".toList ∈ dropAmp tokens → call.stdin = pathAfter "<".toList (dropAmp tokens)) ∧
      (">".toList ∈ dropAmp tokens → call.stdout = pathAfter ">".toList (dropAmp tokens))) ∧
    (tokens.getLast? = some "&".toList →
      childProcess env (tokens.map some ++ [none]) tokens.length ≠ .undefined ∧
      ((∀ p : CStr, env.openIn p = true ∧ env.openOut p = true) →
        ∃ call : ExecCall,
          childProcess env (tokens.map some ++ [none]) tokens.length = .exec call)) := by
  have hne : tokens ≠ [] := by
    intro h0
    rw [h0, dropAmp_nil] at hfirst
    cases hfirst
  obtain ⟨bg, cells, r, hscan, hbg, hargv, hhead0, hin, hout, hif, hof⟩ :=
    childScan_tokens tokens hne hfollow
  have hhead : cells.head?.join = some first := by
    rw [hhead0, hfirst, List.takeWhile_cons, hmark]
    rfl
  have hin1 : r.in_ = 1 ↔ "<".toList ∈ dropAmp tokens := by
    rw [hin]
    by_cases hm : "<".toList ∈ dropAmp tokens
    · rw [if_pos hm]; exact ⟨fun _ => hm, fun _ => rfl⟩
    · rw [if_neg hm]; exact ⟨fun h => absurd h (by decide), fun h => absurd h hm⟩
  have hout1 : r.out = 1 ↔ ">".toList ∈ dropAmp tokens := by
    rw [hout]
    by_cases hm : ">".toList ∈ dropAmp tokens
    · rw [if_pos hm]; exact ⟨fun _ => hm, fun _ => rfl⟩
    · rw [if_neg hm]; exact ⟨fun h => absurd h (by decide), fun h => absurd h hm⟩
  have hstdin : "<".toList ∈ dropAmp tokens →
      (if r.in_ = 1 then some (r.inputFile.getD []) else some devNull) =
      pathAfter "<".toList (dropAmp tokens) := by
    intro hm
    obtain ⟨p, hp⟩ := pathAfter_mem _ isMarker_in _ hfollow hm
    rw [if_pos (hin1.mpr hm), hif, hp]
    rfl
  have hstdout : ">".toList ∈ dropAmp tokens →
      (if r.out = 1 then some (r.outputFile.getD []) else some devNull) =
      pathAfter ">".toList (dropAmp tokens) := by
    intro hm
    obtain ⟨p, hp⟩ := pathAfter_mem _ isMarker_out _ hfollow hm
    rw [if_pos (hout1.mpr hm), hof, hp]
    rfl
  refine ⟨⟨bg, cells, r, hscan, hbg, hhead, hargv, hif, hof, hin1, hout1, ?_⟩, ?_, ?_⟩
  · intro hno
    have h1 := not_mem_of_no_marker _ isMarker_in _ hno
    have h2 := not_mem_of_no_marker _ isMarker_out _ hno
    refine ⟨?_, ?_, ?_, ?_, ?_⟩
    · rw [hargv, List.takeWhile_eq_self_iff]
      intro t ht
      rw [hno t ht]; rfl
    · rw [hin, if_neg h1]
    · rw [hout, if_neg h2]
    · rw [hif, pathAfter_not_mem _ _ h1]
    · rw [hof, pathAfter_not_mem _ _ h2]
  · intro call hc
    unfold childProcess at hc
    rw [hscan] at hc
    cases bg with
    | false =>
      simp only [Bool.false_eq_true, if_false] at hc
      exact (chain_no_exec _ _ _ _ _ hc).elim
    | true =>
      simp only [hhead, if_true] at hc
      have hx := chain_exec_inj _ _ _ _ _ _ _ _ _ _ hc
      subst hx
      exact ⟨rfl, hargv, hstdin, hstdout⟩
  · intro hamp
    have hb : bg = true := hbg.mpr hamp
    subst hb
    constructor
    · unfold childProcess
      rw [hscan]
      simp only [hhead, if_true]
      exact chain_defined _ _ _ _ _ _ _ _ _
    · intro hopen
      unfold childProcess
      rw [hscan]
      simp only [hhead, if_true]
      refine ⟨_, chain_exec _ _ _ _ _ _ _ _ _ ?_ ?_ ?_ ?_⟩
      · exact fun h => Bool.noConfusion ((hopen _).1.symm.trans h.2)
      · exact fun h => Bool.noConfusion ((hopen _).2.symm.trans h.2)
      · exact fun h => Bool.noConfusion ((hopen _).1.symm.trans h.2.2)
      · exact fun h => Bool.noConfusion ((hopen _).2.symm.trans h.2.2)

/-- The redirection theorem at `sort -r < in.txt > out.txt &`: the hypotheses hold there and
the child reaches `execvp` with program `sort`, arguments `sort -r` and the two files. -/
theorem child_redirection_witness :
    (dropAmp backgroundSort = "sort".toList :: backgroundSort.dropLast.tail ∧
      isMarker "sort".toList = false ∧ followOk (dropAmp backgroundSort) = true) ∧
    (∃ call : ExecCall,
      childProcess quietEnv (backgroundSort.map some ++ [none]) backgroundSort.length =
        .exec call) ∧
    (∀ call : ExecCall,
      childProcess quietEnv (backgroundSort.map some ++ [none]) backgroundSort.length =
        .exec call →
      call.file = "sort".toList ∧
      call.argv = (dropAmp backgroundSort).takeWhile (fun t => !isMarker t) ∧
      ("<".toList ∈ dropAmp backgroundSort →
        call.stdin = pathAfter "<".toList (dropAmp backgroundSort)) ∧
      (">".toList ∈ dropAmp backgroundSort →
        call.stdout = pathAfter ">".toList (dropAmp backgroundSort))) :=
  ⟨by decide,
   ((child_redirection quietEnv backgroundSort "sort".toList backgroundSort.dropLast.tail
      (by decide) (by decide) (followOk_sound _ (by decide))).2.2 (by decide)).2
      (fun _ => ⟨rfl, rfl⟩),
   (child_redirection quietEnv backgroundSort "sort".toList backgroundSort.dropLast.tail
      (by decide) (by decide) (followOk_sound _ (by decide))).2.1⟩

/-- C8 fails as stated.  `cat < P &` with a path `P` of 100 characters satisfies the
hypothesis of the claim, yet `strcpy` overruns the 100-byte buffer `inputFile`: the scan, and
with it the child, is undefined, while the same line with the path `in` is scanned and reaches
`execvp`.  And the one-token line `&`, whose first token is no marker, leaves `args[0] == NULL`
after the scan, so the child calls `execvp(NULL, args)` instead of handing over an (empty)
argument list. -/
theorem child_redirection_overrun :
    longPath.length = 100 ∧
    childScan (["cat".toList, "<".toList, longPath, "&".toList].map some ++ [none]) 4 = none ∧
    (∀ env : Env,
      childProcess env (["cat".toList, "<".toList, longPath, "&".toList].map some ++ [none]) 4 =
        .undefined) ∧
    childProcess quietEnv
      (["cat".toList, "<".toList, "in".toList, "&".toList].map some ++ [none]) 4 =
      .exec { file := "cat".toList, argv := ["cat".toList], stdin := some "in".toList,
              stdout := some devNull, sigintIgnored := true,
              printed := ["background pid is 0\n"] } ∧
    childScan (["&".toList].map some ++ [none]) 1 =
      some (true, [none, none],
        { in_ := 0, inputFile := none, out := 0, outputFile := none }) ∧
    childProcess quietEnv (["&".toList].map some ++ [none]) 1 = .undefined := by
  have h : childScan (["cat".toList, "<".toList, longPath, "&".toList].map some ++ [none]) 4 =
      none := by
    decide
  refine ⟨by decide, h, fun env => ?_, by decide, by decide, by decide⟩
  unfold childProcess
  rw [h]

/-! ## The reaper -/

theorem emit_NUMFORKS (s : Shell) (e : Event) : (s.emit e).NUMFORKS = s.NUMFORKS := rfl

theorem reapSlot_NUMFORKS (poll : Nat → WaitRet) (s : Shell) (i : Nat) :
    (reapSlot poll s i).NUMFORKS = s.NUMFORKS := by
  unfold reapSlot
  simp only
  split
  · split
    · rfl
    · split <;> rfl
  · rfl

theorem reapFold_NUMFORKS (poll : Nat → WaitRet) (l : List Nat) :
    ∀ s : Shell, (l.foldl (reapSlot poll) s).NUMFORKS = s.NUMFORKS := by
  induction l with
  | nil => intro s; rfl
  | cons a l ih => intro s; rw [List.foldl_cons, ih, reapSlot_NUMFORKS]

theorem reaperPass_NUMFORKS (poll : Nat → WaitRet) (s : Shell) :
    (reaperPass poll s).NUMFORKS = s.NUMFORKS :=
  reapFold_NUMFORKS poll _ s

theorem killFold_NUMFORKS (l : List Nat) :
    ∀ s : Shell, (l.foldl
      (fun t i =>
        if t.backgroundProcesses.getD i 0 ≠ 0 then
          t.emit (.kill (t.backgroundProcesses.getD i 0))
        else t) s).NUMFORKS = s.NUMFORKS := by
  induction l with
  | nil => intro s; rfl
  | cons a l ih =>
    intro s
    rw [List.foldl_cons, ih]
    split <;> rfl

theorem killJobs_NUMFORKS (s : Shell) : (killJobs s).NUMFORKS = s.NUMFORKS :=
  killFold_NUMFORKS _ s

theorem cdCommand_NUMFORKS (env : Env) (dir : Option CStr) (s : Shell) :
    (cdCommand env dir s).2.NUMFORKS = s.NUMFORKS := by
  unfold cdCommand
  cases dir with
  | none => simp only; split <;> rfl
  | some d => simp only; split <;> rfl

theorem waitLoop_NUMFORKS (pid : Int) (ws : List WaitStatus) :
    ∀ (s s1 : Shell) (st : WaitStatus), waitLoop pid ws s = .ok (st, s1) →
      s1.NUMFORKS = s.NUMFORKS := by
  induction ws with
  | nil => intro s s1 st h; simp [waitLoop] at h
  | cons w ws ih =>
    intro s s1 st h
    simp only [waitLoop] at h
    split at h
    · exact (ih _ _ _ h).trans rfl
    · simp only [Except.ok.injEq, Prod.mk.injEq] at h
      rw [← h.2]; rfl

theorem addBackgroundProc_NUMFORKS (pid : Int) (s s1 : Shell)
    (h : addBackgroundProc pid s = .ok s1) : s1.NUMFORKS = s.NUMFORKS := by
  unfold addBackgroundProc at h
  split at h
  · simp only [Except.ok.injEq] at h
    rw [← h]
  · cases h

theorem runCommand_at_limit (env : Env) (args : List (Option CStr)) (argNum : Nat) (t : Shell)
    (h : MAXFORK ≤ t.NUMFORKS) :
    runCommand env args argNum t =
      .ok (1, t.emit (.print "Forks reached maximum, need to exit\n")) := by
  unfold runCommand
  rw [if_pos (ge_iff_le.mpr h)]

theorem runCommand_NUMFORKS (env : Env) (args : List (Option CStr)) (argNum : Nat)
    (s s1 : Shell) (r : Int) (h : runCommand env args argNum s = .ok (r, s1))
    (h0 : 0 ≤ s.NUMFORKS) (h1 : s.NUMFORKS ≤ MAXFORK) :
    0 ≤ s1.NUMFORKS ∧ s1.NUMFORKS ≤ MAXFORK := by
  unfold runCommand at h
  split at h
  · simp only [Except.ok.injEq, Prod.mk.injEq] at h
    rw [← h.2]
    exact ⟨h0, h1⟩
  · rename_i hlt
    have hlt1 : s.NUMFORKS < MAXFORK := lt_of_not_ge hlt
    simp only at h
    split at h
    · cases h
    · split at h
      · simp only [Except.ok.injEq, Prod.mk.injEq] at h
        rw [← h.2]
        simp only [Shell.emit]
        constructor <;> omega
      · split at h
        · cases h
        · split at h
          · split at h
            · split at h
              · cases h
              · rename_i st s2 hw
                have := waitLoop_NUMFORKS _ _ _ _ _ hw
                simp only [Shell.emit] at this
                split at h
                · simp only [Except.ok.injEq, Prod.mk.injEq] at h
                  rw [← h.2]; simp only; constructor <;> omega
                · split at h
                  · simp only [Except.ok.injEq, Prod.mk.injEq] at h
                    rw [← h.2]; simp only [Shell.emit]; constructor <;> omega
                  · split at h
                    · simp only [Except.ok.injEq, Prod.mk.injEq] at h
                      rw [← h.2]; simp only [Shell.emit]; constructor <;> omega
                    · cases h
            · split at h
              · cases h
              · rename_i s2 ha
                have := addBackgroundProc_NUMFORKS _ _ _ ha
                simp only [Shell.emit] at this
                simp only [Except.ok.injEq, Prod.mk.injEq] at h
                rw [← h.2]; constructor <;> omega
          · cases h

theorem executeCommand_NUMFORKS (env : Env) (args : List (Option CStr)) (argNum : Nat)
    (s s1 : Shell) (r : Int) (h : executeCommand env args argNum s = .ok (r, s1))
    (h0 : 0 ≤ s.NUMFORKS) (h1 : s.NUMFORKS ≤ MAXFORK) :
    0 ≤ s1.NUMFORKS ∧ s1.NUMFORKS ≤ MAXFORK := by
  unfold executeCommand at h
  split at h
  · cases h
  · simp only [Except.ok.injEq, Prod.mk.injEq] at h
    rw [← h.2]; exact ⟨h0, h1⟩
  · split at h
    · simp only [Except.ok.injEq, Prod.mk.injEq] at h
      rw [← h.2]; exact ⟨h0, h1⟩
    · split at h
      · simp only [Except.ok.injEq, Prod.mk.injEq] at h
        rw [← h.2, killJobs_NUMFORKS]; exact ⟨h0, h1⟩
      · split at h
        · split at h
          · cases h
          · rename_i dir _
            have hc := cdCommand_NUMFORKS env dir s
            simp only at h
            split at h
            · simp only [Except.ok.injEq, Prod.mk.injEq] at h
              rw [← h.2]; simp only [hc]; exact ⟨h0, h1⟩
            · split at h
              · simp only [Except.ok.injEq, Prod.mk.injEq] at h
                rw [← h.2]; simp only [hc]; exact ⟨h0, h1⟩
              · simp only [Except.ok.injEq, Prod.mk.injEq] at h
                rw [← h.2, hc]; exact ⟨h0, h1⟩
        · split at h
          · simp only [Except.ok.injEq, Prod.mk.injEq] at h
            rw [← h.2]; exact ⟨h0, h1⟩
          · split at h
            · cases h
            · rename_i status s2 hr
              have := runCommand_NUMFORKS env _ _ _ _ _ hr h0 h1
              simp only [Except.ok.injEq, Prod.mk.injEq] at h
              rw [← h.2]; exact this

theorem shellLoopBody_NUMFORKS (env : Env) (s s1 : Shell) (r : Int)
    (h : shellLoopBody env s = .ok (r, s1))
    (h0 : 0 ≤ s.NUMFORKS) (h1 : s.NUMFORKS ≤ MAXFORK) :
    0 ≤ s1.NUMFORKS ∧ s1.NUMFORKS ≤ MAXFORK := by
  have hr : ((reaperPass env.poll s).emit (.print ": ")).NUMFORKS = s.NUMFORKS := by
    rw [emit_NUMFORKS, reaperPass_NUMFORKS]
  unfold shellLoopBody at h
  simp only at h
  split at h
  · cases h
  · split at h
    · cases h
    · split at h
      · cases h
      · split at h
        · split at h
          · simp only [Except.ok.injEq, Prod.mk.injEq] at h
            rw [← h.2, hr]; exact ⟨h0, h1⟩
          · exact executeCommand_NUMFORKS env _ _ _ _ _ h (by rw [hr]; exact h0)
              (by rw [hr]; exact h1)
        · cases h

theorem reachable_NUMFORKS (s : Shell) (h : Reachable s) :
    0 ≤ s.NUMFORKS ∧ s.NUMFORKS ≤ MAXFORK := by
  induction h with
  | init status0 => simp [Shell.init, MAXFORK]
  | cycle env s s1 _ hc ih => exact shellLoopBody_NUMFORKS env s s1 1 hc ih.1 ih.2

theorem shellLoop_NUMFORKS (envs : List Env) :
    ∀ (s s1 : Shell) (loop : Int), shellLoop envs s = .ok (loop, s1) →
      0 ≤ s.NUMFORKS → s.NUMFORKS ≤ MAXFORK → 0 ≤ s1.NUMFORKS ∧ s1.NUMFORKS ≤ MAXFORK := by
  induction envs with
  | nil =>
    intro s s1 loop h h0 h1
    simp only [shellLoop, Except.ok.injEq, Prod.mk.injEq] at h
    rw [← h.2]
    exact ⟨h0, h1⟩
  | cons env rest ih =>
    intro s s1 loop h h0 h1
    simp only [shellLoop] at h
    split at h
    · cases h
    · rename_i r hr
      obtain ⟨l, t⟩ := r
      have ht := shellLoopBody_NUMFORKS env s t l hr h0 h1
      split at h
      · exact ih t s1 loop h ht.1 ht.2
      · simp only [Except.ok.injEq, Prod.mk.injEq] at h
        rw [← h.2]
        exact ht

/-- C4 (as amended).  In every state at the head of the shell loop that is reached through
cycles free of undefined behaviour, in the state any such cycle from there ends in, and in the
state any such run of further cycles ends in, `NUMFORKS` lies between 0 and `MAXFORK` = 100;
and `runCommand` called with the counter at (or above) 100 returns 1 with the state unchanged
apart from the printed message: no `fork` is made, and the counter and the job table are as
before. -/
theorem numforks_bounded (s : Shell) (h : Reachable s) :
    (0 ≤ s.NUMFORKS ∧ s.NUMFORKS ≤ 100) ∧
    (∀ (env : Env) (loop : Int) (s1 : Shell), shellLoopBody env s = .ok (loop, s1) →
      0 ≤ s1.NUMFORKS ∧ s1.NUMFORKS ≤ 100) ∧
    (∀ (envs : List Env) (loop : Int) (s1 : Shell), shellLoop envs s = .ok (loop, s1) →
      0 ≤ s1.NUMFORKS ∧ s1.NUMFORKS ≤ 100) ∧
    (∀ (env : Env) (args : List (Option CStr)) (argNum : Nat) (t : Shell),
      100 ≤ t.NUMFORKS →
      ∃ t1 : Shell, runCommand env args argNum t = .ok (1, t1) ∧
        t1.NUMFORKS = t.NUMFORKS ∧ t1.backgroundProcesses = t.backgroundProcesses ∧
        t1.NUMBKGRND = t.NUMBKGRND ∧ t1.STATUSCODE = t.STATUSCODE ∧
        t1.trace = t.trace ++ [.print "Forks reached maximum, need to exit\n"]) := by
  have hs := reachable_NUMFORKS s h
  refine ⟨hs, ?_, ?_, ?_⟩
  · intro env loop s1 hc
    exact shellLoopBody_NUMFORKS env s s1 loop hc hs.1 hs.2
  · intro envs loop s1 hc
    exact shellLoop_NUMFORKS envs s s1 loop hc hs.1 hs.2
  · intro env args argNum t ht
    exact ⟨_, runCommand_at_limit env args argNum t ht, rfl, rfl, rfl, rfl, rfl⟩

/-! ## Runs of the shell loop -/

theorem reachable_shellLoop (envs : List Env) :
    ∀ (s t : Shell), Reachable s → shellLoop envs s = .ok (1, t) → Reachable t := by
  induction envs with
  | nil =>
    intro s t hs h
    simp only [shellLoop, Except.ok.injEq, Prod.mk.injEq, true_and] at h
    exact h ▸ hs
  | cons env rest ih =>
    intro s t hs h
    simp only [shellLoop] at h
    split at h
    · cases h
    · rename_i r hr
      split at h
      · rename_i h1
        obtain ⟨loop, s1⟩ := r
        simp only at h1
        subst h1
        exact ih s1 t (Reachable.cycle env s s1 hs hr) h
      · rename_i h1
        simp only [Except.ok.injEq] at h
        rw [h] at h1
        exact absurd rfl h1

theorem ok_of_map {β : Type} (r : Except Halt (Int × Shell)) (f : Shell → β) (b : β)
    (h : r.map (fun p => (p.1, f p.2)) = .ok (1, b)) :
    ∃ s : Shell, r = .ok (1, s) ∧ f s = b := by
  cases r with
  | error e => cases h
  | ok p =>
    obtain ⟨loop, s⟩ := p
    simp only [Except.map, Except.ok.injEq, Prod.mk.injEq] at h
    exact ⟨s, by rw [h.1], h.2⟩

/-- C1, evaluated.  A foreground command whose child exits with code 7 leaves 7 in
`STATUSCODE`, and the `status` built-in run next prints `terminated by signal 7`, not
`exit value 7`; a child killed by signal 1 is reported as `exit value  1`; and for the codes 0
and 1 the text has two spaces after `value`.  `status` leaves `STATUSCODE` unchanged. -/
theorem status_after_foreground :
    (∃ s : Shell,
      shellLoop [typed "./exit7\n" 101 [.exited 7], typed "status\n" 0 []] (Shell.init .other) =
        .ok (1, s) ∧
      s.STATUSCODE = 7 ∧
      s.trace.getLast? = some (.print "terminated by signal 7\n")) ∧
    (∃ s : Shell,
      shellLoop [typed "sleep 9\n" 101 [.signaled 1], typed "status\n" 0 []]
        (Shell.init .other) = .ok (1, s) ∧
      s.STATUSCODE = 1 ∧
      s.trace.getLast? = some (.print "exit value  1\n")) ∧
    statusText 0 = "exit value  0\n" ∧
    (∀ (code : Int) (s : Shell), (statusCommand code s).STATUSCODE = s.STATUSCODE) := by
  refine ⟨?_, ?_, by decide, fun _ _ => rfl⟩
  · obtain ⟨s, hs, hp⟩ := ok_of_map
      (shellLoop [typed "./exit7\n" 101 [.exited 7], typed "status\n" 0 []] (Shell.init .other))
      (fun s => (s.STATUSCODE, s.trace.getLast?))
      (7, some (.print "terminated by signal 7\n")) (by decide)
    simp only [Prod.mk.injEq] at hp
    exact ⟨s, hs, hp.1, hp.2⟩
  · obtain ⟨s, hs, hp⟩ := ok_of_map
      (shellLoop [typed "sleep 9\n" 101 [.signaled 1], typed "status\n" 0 []]
        (Shell.init .other))
      (fun s => (s.STATUSCODE, s.trace.getLast?))
      (1, some (.print "exit value  1\n")) (by decide)
    simp only [Prod.mk.injEq] at hp
    exact ⟨s, hs, hp.1, hp.2⟩

/-- C2, evaluated.  After launching jobs 101 and 102 and reaping 101 while 102 still runs,
the table is `[0, 102, 0, ...]` with `NUMBKGRND = 1`; `addBackgroundProc 103` then stores at
index 1, replacing the still-running job 102 and leaving the free slot 0 free. -/
theorem addBackgroundProc_overwrites_job :
    ∃ s : Shell,
      shellLoop [typed "sleep 1 &\n" 101 [], typed "sleep 100 &\n" 102 [],
        reaping 0 (.exited 0) (typed "# idle\n" 0 [])] (Shell.init .other) = .ok (1, s) ∧
      Reachable s ∧
      s.backgroundProcesses = [0, 102, 0, 0, 0, 0, 0, 0, 0, 0] ∧
      s.NUMBKGRND = 1 ∧
      (addBackgroundProc 103 s).map (fun t => t.backgroundProcesses) =
        .ok [0, 103, 0, 0, 0, 0, 0, 0, 0, 0] := by
  obtain ⟨s, hs, hp⟩ := ok_of_map
    (shellLoop [typed "sleep 1 &\n" 101 [], typed "sleep 100 &\n" 102 [],
      reaping 0 (.exited 0) (typed "# idle\n" 0 [])] (Shell.init .other))
    (fun s => (s.backgroundProcesses, s.NUMBKGRND,
      (addBackgroundProc 103 s).map (fun t => t.backgroundProcesses)))
    ([0, 102, 0, 0, 0, 0, 0, 0, 0, 0], 1, .ok [0, 103, 0, 0, 0, 0, 0, 0, 0, 0]) (by decide)
  simp only [Prod.mk.injEq] at hp
  exact ⟨s, hs, reachable_shellLoop _ _ _ (Reachable.init _) hs, hp.1, hp.2.1, hp.2.2⟩

/-- C3, evaluated.  With distinct process ids throughout: launching 101 and 102, reaping 101
and launching 103 reaches a state with one occupied slot and `NUMBKGRND = 2`; and ten launches
without a reap reach `NUMBKGRND = 10`, where the next launch stores at index 10, outside the
table. -/
theorem job_table_invariant_broken :
    (∃ s : Shell,
      shellLoop [typed "sleep 1 &\n" 101 [], typed "sleep 100 &\n" 102 [],
        reaping 0 (.exited 0) (typed "sleep 5 &\n" 103 [])] (Shell.init .other) = .ok (1, s) ∧
      Reachable s ∧
      s.backgroundProcesses = [0, 103, 0, 0, 0, 0, 0, 0, 0, 0] ∧
      s.NUMBKGRND = 2 ∧ occupied s = 1) ∧
    (∃ s : Shell,
      shellLoop (elevenLaunches.take 10) (Shell.init .other) = .ok (1, s) ∧
      Reachable s ∧
      s.backgroundProcesses = [201, 202, 203, 204, 205, 206, 207, 208, 209, 210] ∧
      s.NUMBKGRND = 10 ∧
      shellLoopBody (typed "sleep 9 &\n" 211 []) s = .error .undefined) := by
  constructor
  · obtain ⟨s, hs, hp⟩ := ok_of_map
      (shellLoop [typed "sleep 1 &\n" 101 [], typed "sleep 100 &\n" 102 [],
        reaping 0 (.exited 0) (typed "sleep 5 &\n" 103 [])] (Shell.init .other))
      (fun s => (s.backgroundProcesses, s.NUMBKGRND, occupied s))
      ([0, 103, 0, 0, 0, 0, 0, 0, 0, 0], 2, 1) (by decide)
    simp only [Prod.mk.injEq] at hp
    exact ⟨s, hs, reachable_shellLoop _ _ _ (Reachable.init _) hs, hp.1, hp.2.1, hp.2.2⟩
  · obtain ⟨s, hs, hp⟩ := ok_of_map
      (shellLoop (elevenLaunches.take 10) (Shell.init .other))
      (fun s => (s.backgroundProcesses, s.NUMBKGRND,
        shellLoopBody (typed "sleep 9 &\n" 211 []) s))
      ([201, 202, 203, 204, 205, 206, 207, 208, 209, 210], 10, .error .undefined) (by decide)
    simp only [Prod.mk.injEq] at hp
    exact ⟨s, hs, reachable_shellLoop _ _ _ (Reachable.init _) hs, hp.1, hp.2.1, hp.2.2⟩

/-- C6, evaluated.  On the blank line `"\n"` (and on a line of spaces and tabs) `parseLine`
returns an array whose first cell is `NULL`, and the cycle then reads `firstArg[0]` through
that `NULL` pointer: the cycle ends in undefined behaviour instead of continuing the loop. -/
theorem blank_line_null_dereference (env : Env) (s : Shell) :
    parseLine "\n".toList = .ok [none] ∧
    shellLoopBody { env with input := some "\n".toList } s = .error .undefined ∧
    shellLoopBody { env with input := some " \t \n".toList } s = .error .undefined ∧
    executeCommand env [none] 0 s = .ok (1, s) := by
  have h1 : parseLine ("\n".toList.take (MAXBUFSIZE - 1)) = .ok [none] := by decide
  have h2 : parseLine (" \t \n".toList.take (MAXBUFSIZE - 1)) = .ok [none] := by decide
  refine ⟨by decide, ?_, ?_, rfl⟩
  · unfold shellLoopBody
    simp only [readLine, Option.map_some', h1]
    rfl
  · unfold shellLoopBody
    simp only [readLine, Option.map_some', h2]
    rfl

/-- C10, evaluated.  After one background launch whose child is reaped in the next cycle,
`NUMFORKS` is 1 while no spawned child is left unwaited and the job table is empty; after one
failed `fork`, `NUMFORKS` is 1 although no child was spawned. -/
theorem numforks_not_live_children :
    (∃ s : Shell,
      shellLoop [typed "sleep 1 &\n" 101 [], reaping 0 (.exited 0) (typed "# idle\n" 0 [])]
        (Shell.init .other) = .ok (1, s) ∧
      Reachable s ∧
      s.NUMFORKS = 1 ∧ liveChildren s.trace = 0 ∧ occupied s = 0 ∧
      (reaperPass quietEnv.poll s).NUMFORKS = 1) ∧
    (∃ s : Shell,
      shellLoop [typed "ls\n" (-1) []] (Shell.init .other) = .ok (1, s) ∧
      Reachable s ∧
      s.NUMFORKS = 1 ∧ liveChildren s.trace = 0 ∧
      s.trace = [.print ": ", .fork (-1), .perror "smallsh"]) := by
  constructor
  · obtain ⟨s, hs, hp⟩ := ok_of_map
      (shellLoop [typed "sleep 1 &\n" 101 [], reaping 0 (.exited 0) (typed "# idle\n" 0 [])]
        (Shell.init .other))
      (fun s => (s.NUMFORKS, liveChildren s.trace, occupied s,
        (reaperPass quietEnv.poll s).NUMFORKS))
      (1, 0, 0, 1) (by decide)
    simp only [Prod.mk.injEq] at hp
    exact ⟨s, hs, reachable_shellLoop _ _ _ (Reachable.init _) hs, hp.1, hp.2.1, hp.2.2.1,
      hp.2.2.2⟩
  · obtain ⟨s, hs, hp⟩ := ok_of_map
      (shellLoop [typed "ls\n" (-1) []] (Shell.init .other))
      (fun s => (s.NUMFORKS, liveChildren s.trace, s.trace))
      (1, 0, [.print ": ", .fork (-1), .perror "smallsh"]) (by decide)
    simp only [Prod.mk.injEq] at hp
    exact ⟨s, hs, reachable_shellLoop _ _ _ (Reachable.init _) hs, hp.1, hp.2.1, hp.2.2⟩

/-- C7, evaluated.  After a failed `cd` has left 1 in `STATUSCODE`, `executeCommand` on
`sleep 5 &` with a successful `fork` registers the job and leaves 0 in `STATUSCODE`, although
no process has completed: the value `runCommand` returns for a background launch is stored by
the statement commented "store status of completed process". -/
theorem background_launch_resets_status :
    ∃ s t : Shell,
      shellLoop [chdirFails (typed "cd /nowhere\n" 0 [])] (Shell.init .other) = .ok (1, s) ∧
      Reachable s ∧ s.STATUSCODE = 1 ∧
      executeCommand (typed "sleep 5 &\n" 101 []) sleepBackground 3 s = .ok (1, t) ∧
      t.STATUSCODE = 0 ∧ t.STATUSCODE ≠ s.STATUSCODE := by
  obtain ⟨s, hs, hp⟩ := ok_of_map
    (shellLoop [chdirFails (typed "cd /nowhere\n" 0 [])] (Shell.init .other))
    (fun s => (s.STATUSCODE,
      (executeCommand (typed "sleep 5 &\n" 101 []) sleepBackground 3 s).map
        (fun p => (p.1, p.2.STATUSCODE))))
    (1, .ok (1, 0)) (by decide)
  simp only [Prod.mk.injEq] at hp
  obtain ⟨t, ht, hq⟩ := ok_of_map
    (executeCommand (typed "sleep 5 &\n" 101 []) sleepBackground 3 s)
    (fun t => t.STATUSCODE) 0 hp.2
  refine ⟨s, t, hs, reachable_shellLoop _ _ _ (Reachable.init _) hs, hp.1, ht, hq, ?_⟩
  rw [hq, hp.1]
  decide

/-- What `executeCommand` does on a background launch, at every state: for an external
command whose last token is `&`, with the counter below `MAXFORK`, a successful `fork` and
`NUMBKGRND` inside the table, it registers the new process, counts it in `NUMFORKS`, and
overwrites `STATUSCODE` with 0. -/
theorem executeCommand_background (env : Env) (args : List (Option CStr)) (argNum : Nat)
    (s : Shell) (arg : CStr) (rest : List (Option CStr))
    (hargs : args = some arg :: rest)
    (hcomment : arg.head? ≠ some '#') (hexit : arg ≠ "exit".toList)
    (hcd : arg ≠ "cd".toList) (hstatus : arg ≠ "status".toList)
    (hnum : argNum ≠ 0) (hlast : args.get? (argNum - 1) = some (some "&".toList))
    (hlimit : s.NUMFORKS < MAXFORK) (hfork : 0 < env.forkRet)
    (hfree : 0 ≤ s.NUMBKGRND ∧ s.NUMBKGRND < 10) :
    executeCommand env args argNum s =
      .ok (1, { STATUSCODE := 0, NUMFORKS := s.NUMFORKS + 1,
                backgroundProcesses := s.backgroundProcesses.set s.NUMBKGRND.toNat env.forkRet,
                NUMBKGRND := s.NUMBKGRND + 1, status := s.status,
                trace := s.trace ++ [.fork env.forkRet] }) := by
  have hrun : runCommand env args argNum s =
      .ok (0, { STATUSCODE := s.STATUSCODE, NUMFORKS := s.NUMFORKS + 1,
                backgroundProcesses := s.backgroundProcesses.set s.NUMBKGRND.toNat env.forkRet,
                NUMBKGRND := s.NUMBKGRND + 1, status := s.status,
                trace := s.trace ++ [.fork env.forkRet] }) := by
    unfold runCommand
    rw [if_neg (not_le.mpr hlimit)]
    simp only
    rw [if_neg (ne_of_gt hfork), if_neg (not_lt.mpr (le_of_lt hfork)), if_neg hnum, hlast]
    simp only [ne_eq, not_true_eq_false, if_false]
    unfold addBackgroundProc
    simp only [Shell.emit]
    rw [if_pos hfree]
  subst hargs
  unfold executeCommand
  simp only
  rw [if_neg hcomment, if_neg hexit, if_neg hcd, if_neg hstatus, hrun]

/-- The counter bound at the state reached by two background launches. -/
theorem numforks_bounded_witness :
    Reachable twoJobs ∧ twoJobs.NUMFORKS = 2 ∧
    (0 ≤ twoJobs.NUMFORKS ∧ twoJobs.NUMFORKS ≤ 100) :=
  ⟨reachable_shellLoop [typed "sleep 1 &\n" 101 [], typed "sleep 100 &\n" 102 []] _ _
      (Reachable.init .other) (by decide),
   rfl,
   (numforks_bounded twoJobs
      (reachable_shellLoop [typed "sleep 1 &\n" 101 [], typed "sleep 100 &\n" 102 []] _ _
        (Reachable.init .other) (by decide))).1⟩

/-- C4 fails as stated.  Ten `sleep 9 &` lines with no job terminating reach a state with
`NUMFORKS = 10`, far below the limit, and `NUMBKGRND = 10`; the eleventh launch passes the
`NUMFORKS` guard and `addBackgroundProc` stores at `backgroundProcesses[10]`, outside the
array.  From that store on the run has no defined state, so it does not end in a state whose
counter is at most 100. -/
theorem numforks_run_undefined :
    (∃ s : Shell,
      shellLoop (elevenLaunches.take 10) (Shell.init .other) = .ok (1, s) ∧
      s.NUMFORKS = 10 ∧ s.NUMBKGRND = 10) ∧
    shellLoop elevenLaunches (Shell.init .other) = .error .undefined ∧
    ¬ ∃ (loop : Int) (s : Shell),
      shellLoop elevenLaunches (Shell.init .other) = .ok (loop, s) ∧ s.NUMFORKS ≤ 100 := by
  have h : shellLoop elevenLaunches (Shell.init .other) = .error .undefined := by decide
  refine ⟨?_, h, ?_⟩
  · obtain ⟨s, hs, hp⟩ := ok_of_map
      (shellLoop (elevenLaunches.take 10) (Shell.init .other))
      (fun s => (s.NUMFORKS, s.NUMBKGRND)) (10, 10) (by decide)
    simp only [Prod.mk.injEq] at hp
    exact ⟨s, hs, hp.1, hp.2⟩
  · rintro ⟨loop, s, hs, _⟩
    rw [h] at hs
    cases hs

end Smallsh
